import Mathlib

/-
Verification of the pdoc CLI core (src/pdoc/cli.py) against its
natural-language specification.

The development shallowly embeds the components the claims are about:
  - the depth-bounded discovery engine (getPackages / _check_if_package),
  - the output writer (_quit_if_exists / _open_write_file /
    recursive_write_files and the main html loop),
  - the lunr search-index builder (to_url_id / recursive_add_to_index /
    _generate_lunr_search),
  - the live-server helpers (check_modified / do_HEAD / resolve_ext and
    the .ext branch of do_GET).

Filesystem access, the reflection collaborator (pdoc.import_module /
pdoc.Module) and the renderer are out of scope per the spec; they enter as
explicit function-valued parameters of the embedded state.  Paths are
modelled as plain strings that are already absolute and user-expanded
(abspath/expanduser are the identity on them).  Python exceptions are
modelled with Option/Except, and the one potentially non-terminating loop
(the classification loop inside _check_if_package) is modelled with an
explicit fuel parameter that is consumed once per executed iteration, so
that a result of none for every fuel value is exactly non-termination.
-/

/-! ## String and path helpers -/

/-- Whether the first character list starts the second one. -/
def startsList : List Char → List Char → Bool
  | [], _ => true
  | _ :: _, [] => false
  | a :: as, b :: bs => a == b && startsList as bs

/-- Whether the first character list occurs inside the second one. -/
def infixList (needle : List Char) : List Char → Bool
  | [] => startsList needle []
  | b :: bs => startsList needle (b :: bs) || infixList needle bs

/-- Substring containment test, Python's `j in i` on strings. -/
def substrOf (j i : String) : Bool :=
  infixList j.toList i.toList

/-- Python's `os.path.join(d, i)` for an absolute `d` and a relative `i`. -/
def joinPath (d i : String) : String :=
  d ++ "/" ++ i

/-- Split a character list on a separator character. -/
def splitChar (c : Char) : List Char → List (List Char)
  | [] => [[]]
  | a :: as =>
    match splitChar c as, a == c with
    | r, true => [] :: r
    | [], false => [[a]]
    | g :: gs, false => (a :: g) :: gs

/-- Python's `s.split(c)` for a one-character separator. -/
def splitOnChar (c : Char) (s : String) : List String :=
  (splitChar c s.toList).map String.mk

/-- Python's `sep.join(parts)`. -/
def joinWith (sep : String) : List String → String
  | [] => ""
  | [x] => x
  | x :: xs => x ++ sep ++ joinWith sep xs

/-- Python's `os.path.split(p)[1]`: the part after the last slash. -/
def splitLast (p : String) : String :=
  (splitOnChar '/' p).getLastD ""

/-- Python's `os.path.dirname(p)`: everything before the last slash. -/
def dirname (p : String) : String :=
  joinWith "/" (splitOnChar '/' p).dropLast

/-- Python's `s.lstrip('/')`. -/
def lstripSlash (s : String) : String :=
  String.mk (s.toList.dropWhile (fun c => c = '/'))

/-- Python's `s.endswith(suf)`. -/
def strEndsWith (s suf : String) : Bool :=
  startsList suf.toList.reverse s.toList.reverse

/-- Python's `s[:-n]`, dropping the last `n` characters. -/
def strDropRight (s : String) (n : Nat) : String :=
  String.mk (s.toList.take (s.toList.length - n))

/-- Python's `s[n:]`, dropping the first `n` characters. -/
def strDrop (s : String) (n : Nat) : String :=
  String.mk (s.toList.drop n)

/-- The number of characters of `s` (`len(s)`). -/
def strLen (s : String) : Nat :=
  s.toList.length

/-! ## Discovery engine (cli.py getPackages)

The filesystem and the reflection collaborator are a record of functions:
`isdir` is `os.path.isdir`, `subdirNames` is `next(os.walk(d))[1]`,
`isModule` is the `_check_if_module` oracle (the path imports and the
resulting object carries `__file__`; the ImportError branch is not
exercised by the claims and is not modelled), and `hasSetupPy` is
`'setup.py' in os.listdir(d)`. -/

structure FS where
  isdir : String → Bool
  subdirNames : String → List String
  isModule : String → Bool
  hasSetupPy : String → Bool

/-- The slice of the global `args` namespace consulted by discovery. -/
structure Args where
  ignore : List String
  output_dir : Option String

/-- Default skip fragments, cli.py line 205. -/
def SKIP_DIRS : List String :=
  ["venv", "docs", "egg-info", "build", "dist", "virtualenv"]

/-- Skipped leading characters, cli.py line 206. -/
def SKIP_PREPEND : List Char := ['.', '_']

/-- The effective skip list: defaults plus `args.ignore` plus
`args.output_dir` (cli.py lines 207-210). -/
def skipDirs (a : Args) : List String :=
  SKIP_DIRS ++ a.ignore ++ (match a.output_dir with | some d => [d] | none => [])

/-- The filter of the subdirectory comprehension in cli.py lines 216-217:
keep name `i` when no skip fragment occurs in it and its first character is
not a skipped prefix character.  Directory names are nonempty, so the
`i[0]` indexing never fails; an empty name is kept here. -/
def keepName (sd : List String) (i : String) : Bool :=
  (!sd.any (fun j => substrOf j i)) &&
  (match i.toList.head? with
   | some c => !SKIP_PREPEND.contains c
   | none => true)

/-- The `for dir_ in subDirs` loop of cli.py lines 218-222, iterating by
index exactly as the Python for statement does over a list that the loop
body itself may extend: a module subdirectory is appended to
`packageMods`, a non-module subdirectory is appended to `subDirs` — the
very list being iterated.  One unit of fuel is consumed per executed
iteration; `none` means the fuel ran out before the loop finished. -/
def checkLoop (fs : FS) : Nat → Nat → List String → List String →
    Option (List String × List String)
  | 0, i, subDirs, mods =>
    if i < subDirs.length then none else some (mods, subDirs)
  | fuel + 1, i, subDirs, mods =>
    if h : i < subDirs.length then
      if fs.isModule subDirs[i] then
        checkLoop fs fuel (i + 1) subDirs (mods ++ [subDirs[i]])
      else
        checkLoop fs fuel (i + 1) (subDirs ++ [subDirs[i]]) mods
    else some (mods, subDirs)

/-- cli.py lines 201-223, `_check_if_package`: classify one directory.
If the directory itself imports as a module it is the single collected
unit; otherwise its immediate subdirectories surviving the skip filter are
classified by `checkLoop`.  Returns (collected module paths, whether
`setup.py` is present, the final subdirectory list). -/
def _check_if_package (fs : FS) (a : Args) (fuel : Nat) (directory : String) :
    Option (List String × Bool × List String) :=
  if fs.isModule directory then
    some ([directory], fs.hasSetupPy directory, [])
  else
    let subDirs := ((fs.subdirNames directory).filter (keepName (skipDirs a))).map
      (fun i => joinPath directory i)
    match checkLoop fs fuel 0 subDirs [] with
    | none => none
    | some (mods, sd) => some (mods, fs.hasSetupPy directory, sd)

/-- Discovery errors of cli.py lines 246 and 250.  `fileNotFound` carries
the collected erroring entries (the paths joined into the message) and the
1-based round in which it was raised; `moduleNotFound` carries the
original root list named in the message. -/
inductive DiscError where
  | fileNotFound (errs : List String) (round : Nat)
  | moduleNotFound (oriPackages : List String)
  deriving DecidableEq, Repr

/-- The `for package in packages` body of one round of the while loop,
cli.py lines 235-244, with the four accumulators `packs`, `modules`,
`subdirs`, `errs` threaded explicitly. -/
def processLevel (fs : FS) (a : Args) (fuel : Nat) :
    List String → List (String × List String) → List String → List String →
    List String →
    Option (List (String × List String) × List String × List String × List String)
  | [], packs, mods, subdirs, errs => some (packs, mods, subdirs, errs)
  | package :: rest, packs, mods, subdirs, errs =>
    if fs.isdir package then
      match _check_if_package fs a fuel package with
      | none => none
      | some (m, pack, subd) =>
        if pack then
          processLevel fs a fuel rest (packs ++ [(splitLast package, m)]) mods subdirs errs
        else
          processLevel fs a fuel rest packs (mods ++ m) (subdirs ++ subd) errs
    else
      processLevel fs a fuel rest packs mods subdirs (errs ++ [package])

/-- The `while depth` loop of cli.py lines 234-248 followed by the final
emptiness check of lines 249-252.  `level` is the 1-based number of the
round about to run (instrumentation recording when an error is raised);
`ori` is the preserved original root list. -/
def getPackagesAux (fs : FS) (a : Args) (fuel : Nat) :
    Nat → Nat → List String → List (String × List String) → List String →
    List String →
    Option (Except DiscError (List (String × List String) × List String))
  | 0, _, _, packs, modules, ori =>
    some (if packs.isEmpty && modules.isEmpty then
            Except.error (DiscError.moduleNotFound ori)
          else Except.ok (packs, modules))
  | depth + 1, level, packages, packs, modules, ori =>
    match processLevel fs a fuel packages packs modules [] [] with
    | none => none
    | some (packs2, modules2, subdirs, errs) =>
      if packs2.isEmpty && modules2.isEmpty && subdirs.isEmpty then
        some (Except.error (DiscError.fileNotFound errs level))
      else
        getPackagesAux fs a fuel depth (level + 1) subdirs packs2 modules2 ori

/-- cli.py lines 167-252, `getPackages`, for an input already given as a
list of path strings and an integer depth (the non-list and non-int
coercions of lines 225-230 are outside this entry point). -/
def getPackages (fs : FS) (a : Args) (fuel : Nat)
    (packages : List String) (depth : Nat) :
    Option (Except DiscError (List (String × List String) × List String)) :=
  getPackagesAux fs a fuel depth 1 packages [] [] packages

/-! ### Discovery lemmas -/

/-- The classification loop over an empty subdirectory list finishes at
once whatever the fuel. -/
theorem checkLoop_nil (fs : FS) (fuel i : Nat) (mods : List String) :
    checkLoop fs fuel i [] mods = some (mods, []) := by
  cases fuel <;> simp [checkLoop]

/-- If every subdirectory from the current index on is a non-module, the
classification loop keeps re-appending it and never terminates: it returns
`none` for every fuel value. -/
theorem checkLoop_diverges (fs : FS) :
    ∀ (fuel i : Nat) (l mods : List String),
      i < l.length →
      (∀ j (hj : j < l.length), i ≤ j → fs.isModule l[j] = false) →
      checkLoop fs fuel i l mods = none := by
  intro fuel
  induction fuel with
  | zero =>
    intro i l mods hi _
    simp [checkLoop, hi]
  | succ fuel ih =>
    intro i l mods hi hall
    have hmod : fs.isModule l[i] = false := hall i hi (Nat.le_refl i)
    simp only [checkLoop, dif_pos hi, hmod, Bool.false_eq_true, if_false]
    apply ih
    · simp only [List.length_append, List.length_singleton]
      omega
    · intro j hj hij
      rcases Nat.lt_or_ge j l.length with hjl | hjl
      · rw [List.getElem_append_left hjl]
        exact hall j hjl (Nat.le_of_succ_le hij)
      · have hj1 : j = l.length := by
          have hlt : j < l.length + 1 := by
            simp only [List.length_append, List.length_singleton] at hj
            exact hj
          omega
        subst hj1
        have hb : l.length < (l ++ [l[i]]).length := by
          simp only [List.length_append, List.length_singleton]
          omega
        have : (l ++ [l[i]])[l.length] = l[i] := by
          simp
        rw [this]
        exact hall i hi (Nat.le_refl i)

/-- Processing a level all of whose entries fail the directory test only
collects them into `errs`. -/
theorem processLevel_nondirs (fs : FS) (a : Args) (fuel : Nat) :
    ∀ (ps : List String) packs mods subdirs errs,
      (∀ r ∈ ps, fs.isdir r = false) →
      processLevel fs a fuel ps packs mods subdirs errs =
        some (packs, mods, subdirs, errs ++ ps) := by
  intro ps
  induction ps with
  | nil => intro packs mods subdirs errs _; simp [processLevel]
  | cons p rest ih =>
    intro packs mods subdirs errs hall
    have hp : fs.isdir p = false := hall p (List.mem_cons_self p rest)
    simp only [processLevel, hp, Bool.false_eq_true, if_false]
    rw [ih packs mods subdirs (errs ++ [p])
      (fun r hr => hall r (List.mem_cons_of_mem p hr))]
    simp

/-! ### Concrete instances for the discovery claims -/

/-- A filesystem with a single root directory `r` whose single
subdirectory `a` resolves without a `__file__` attribute (a namespace
container), i.e. classifies as a non-unit. -/
def fsC1 : FS where
  isdir := fun s => s == "r" || s == "r/a"
  subdirNames := fun s => if s == "r" then ["a"] else []
  isModule := fun _ => false
  hasSetupPy := fun _ => false

/-- A filesystem with a single root directory `e` that exists but has no
subdirectories and no importable unit anywhere. -/
def fsC2 : FS where
  isdir := fun s => s == "e"
  subdirNames := fun _ => []
  isModule := fun _ => false
  hasSetupPy := fun _ => false

/-- An Args record with no extra ignores and no output directory. -/
def argsNone : Args where
  ignore := []
  output_dir := none

/-- C1: the claim states that discovery terminates: the frontier loop runs
at most maxDepth times and `_check_if_package` terminates after examining
each immediate subdirectory, pushing non-units onto the next frontier
rather than re-examining them within the same level.  The code violates
this: on a root whose single subdirectory is a non-unit, the inner loop
appends that subdirectory to the very list it iterates and re-examines it
forever, so `_check_if_package` — and with it `getPackages` — exhausts
every fuel bound and never terminates. -/
theorem C1_check_if_package_diverges :
    (∀ fuel, _check_if_package fsC1 argsNone fuel "r" = none) ∧
    (∀ fuel, getPackages fsC1 argsNone fuel ["r"] 1 = none) := by
  have hdiv : ∀ fuel, checkLoop fsC1 fuel 0 ["r/a"] [] = none := by
    intro fuel
    apply checkLoop_diverges
    · decide
    · intro j hj _
      have hj1 : j < 1 := by
        simp only [List.length_singleton] at hj
        exact hj
      have hj0 : j = 0 := by omega
      subst hj0
      rfl
  have hpkg : ∀ fuel, _check_if_package fsC1 argsNone fuel "r" = none := by
    intro fuel
    show (match checkLoop fsC1 fuel 0 ["r/a"] [] with
          | none => none
          | some (mods, sd) => some (mods, fsC1.hasSetupPy "r", sd)) = none
    rw [hdiv fuel]
  refine ⟨hpkg, fun fuel => ?_⟩
  simp only [getPackages, getPackagesAux, processLevel]
  rw [hpkg fuel]
  rfl

/-- C2: the claim states that a root that exists as a directory but whose
subtree contains no importable unit makes discovery fail with
ModuleNotFoundError naming the roots, after exactly maxDepth rounds.  The
code instead trips the per-level emptiness check in the very first round
and raises FileNotFoundError with an empty erroring-path list (message
"The directories  do not exist."), even though the directory exists. -/
theorem C2_empty_root_fails_first_round :
    ∀ fuel, getPackages fsC2 argsNone fuel ["e"] 2 =
      some (Except.error (DiscError.fileNotFound [] 1)) := by
  intro fuel
  have hcp : _check_if_package fsC2 argsNone fuel "e" = some ([], false, []) := by
    show (match checkLoop fsC2 fuel 0 [] [] with
          | none => none
          | some (mods, sd) => some (mods, fsC2.hasSetupPy "e", sd)) =
      some ([], false, [])
    rw [checkLoop_nil]
    rfl
  simp only [getPackages, getPackagesAux, processLevel]
  rw [hcp]
  rfl

/-- C3: a root list every entry of which fails the directory test yields,
for every positive depth, the FileNotFoundError naming exactly those
entries in order, raised in the first round. -/
theorem C3_all_invalid_roots_fail_fast (fs : FS) (a : Args) (fuel : Nat)
    (roots : List String) (depth : Nat)
    (hdepth : 1 ≤ depth)
    (hroots : ∀ r ∈ roots, fs.isdir r = false) :
    getPackages fs a fuel roots depth =
      some (Except.error (DiscError.fileNotFound roots 1)) := by
  obtain ⟨d, rfl⟩ : ∃ d, depth = d + 1 := ⟨depth - 1, by omega⟩
  simp only [getPackages, getPackagesAux]
  rw [processLevel_nondirs fs a fuel roots [] [] [] [] hroots]
  simp

/-- Witness for C3 at concrete data: two bad roots, depth 3. -/
theorem C3_all_invalid_roots_fail_fast_witness :
    getPackages fsC2 argsNone 5 ["x", "y"] 3 =
      some (Except.error (DiscError.fileNotFound ["x", "y"] 1)) :=
  C3_all_invalid_roots_fail_fast fsC2 argsNone 5 ["x", "y"] 3 (by decide)
    (by decide)

/-! ## Output writer (cli.py module_path, _quit_if_exists, _open_write_file,
recursive_write_files and the html branch of main)

The relevant filesystem state is a finite map from file path to content
plus the set of existing directories.  `lexists` is `os.path.lexists`. -/

structure FsState where
  files : List (String × String)
  dirs : List String
  deriving DecidableEq, Repr

/-- Drop every binding for `name`. -/
def eraseKey (files : List (String × String)) (name : String) :
    List (String × String) :=
  files.filter (fun kv => kv.1 != name)

/-- Content of the file at `name`, if one exists. -/
def lookupFile (fsx : FsState) (name : String) : Option String :=
  (fsx.files.find? (fun kv => kv.1 == name)).map (fun kv => kv.2)

/-- Create or overwrite the file at `name`. -/
def setFile (fsx : FsState) (name content : String) : FsState :=
  { fsx with files := eraseKey fsx.files name ++ [(name, content)] }

/-- Delete the file at `name` (`os.unlink`; a missing file is a no-op,
matching the inner try/except around the unlink). -/
def removeFile (fsx : FsState) (name : String) : FsState :=
  { fsx with files := eraseKey fsx.files name }

/-- `os.path.lexists`: a file or a directory exists at the path. -/
def lexists (fsx : FsState) (p : String) : Bool :=
  (lookupFile fsx p).isSome || fsx.dirs.contains p

/-- One write performed through `_open_write_file`: the body writes
`partialContent` first and, when `ok`, finishes with `full`; `ok = false`
means an exception escapes the body mid-write. -/
structure WriteAttempt where
  partialContent : String
  full : String
  ok : Bool
  deriving DecidableEq, Repr

/-- cli.py lines 434-445, `_open_write_file`: `open(filename, 'w')`
creates or truncates the file; on normal completion of the body the
created path is printed to stdout (the returned string list); on a failure
inside the body the partially written file is unlinked and the failure is
re-raised (the returned Bool is false). -/
def _open_write_file (fsx : FsState) (filename : String) (w : WriteAttempt) :
    FsState × List String × Bool :=
  let opened := setFile fsx filename ""
  if w.ok then
    (setFile opened filename w.full, [filename], true)
  else
    (removeFile (setFile opened filename w.partialContent) filename, [], false)

mutual
/-- A documentation unit as the writer sees it: its url (`m.url()`), its
package flag (`m.is_package`), its rendered output (`m.html()` or
`m.text()`), and its submodules. -/
inductive PModule where
  | mk (url : String) (is_package : Bool) (rendered : String)
      (submodules : PModList)
/-- A list of documentation units. -/
inductive PModList where
  | nil
  | cons (m : PModule) (rest : PModList)
end

def PModule.url : PModule → String
  | .mk u _ _ _ => u

def PModule.is_package : PModule → Bool
  | .mk _ p _ _ => p

def PModule.rendered : PModule → String
  | .mk _ _ r _ => r

/-- cli.py lines 415-416, `module_path`: the output path of a unit, the
output directory joined with the unit's url whose trailing `.html` is
replaced by the requested extension. -/
def subHtmlExt (url ext : String) : String :=
  if strEndsWith url ".html" then strDropRight url 5 ++ ext else url

def module_path (od : String) (m : PModule) (ext : String) : String :=
  joinPath od (subHtmlExt m.url ext)

/-- The paths examined by `_quit_if_exists` (cli.py lines 423-425): the
unit's target file and, for a package unit, its containing directory. -/
def quitPaths (od : String) (m : PModule) (ext : String) : List String :=
  [module_path od m ext] ++
    (if m.is_package then [dirname (module_path od m ext)] else [])

/-- cli.py lines 419-431, `_quit_if_exists`: with force set it returns at
once; otherwise, if any examined path already exists, the process exits
with status 1 (`some 1`). -/
def _quit_if_exists (force : Bool) (od : String) (fsx : FsState)
    (m : PModule) (ext : String) : Option Nat :=
  if force then none
  else if (quitPaths od m ext).any (lexists fsx) then some 1 else none

mutual
/-- cli.py lines 448-463, `recursive_write_files`: create the containing
directory when absent, write the rendered unit through
`_open_write_file` (the write body succeeding), then recurse into the
submodules depth-first. -/
def recursive_write_files (od ext : String) : FsState → PModule → FsState
  | fsx, PModule.mk url ispkg rendered subs =>
    let filepath := module_path od (PModule.mk url ispkg rendered subs) ext
    let fsx2 := if fsx.dirs.contains (dirname filepath) then fsx
      else { fsx with dirs := fsx.dirs ++ [dirname filepath] }
    let fsx3 := (_open_write_file fsx2 filepath
      { partialContent := "", full := rendered, ok := true }).1
    writeSubmodules od ext fsx3 subs
def writeSubmodules (od ext : String) : FsState → PModList → FsState
  | fsx, PModList.nil => fsx
  | fsx, PModList.cons m rest =>
    writeSubmodules od ext (recursive_write_files od ext fsx m) rest
end


/-- One iteration of the `for module in modules` html branch of `main`
(cli.py lines 691-694, with lunr search not configured): the pre-flight
check, then the recursive write.  `some code` is a `sys.exit`. -/
def processOne (force : Bool) (od : String) (fsx : FsState) (m : PModule) :
    FsState × Option Nat :=
  match _quit_if_exists force od fsx m ".html" with
  | some code => (fsx, some code)
  | none => (recursive_write_files od ".html" fsx m, none)

/-- The whole html write loop of `main` over the discovered unit list. -/
def runModules (force : Bool) (od : String) :
    FsState → PModList → FsState × Option Nat
  | fsx, PModList.nil => (fsx, none)
  | fsx, PModList.cons m rest =>
    match processOne force od fsx m with
    | (fsx2, some code) => (fsx2, some code)
    | (fsx2, none) => runModules force od fsx2 rest

/-! ### Writer lemmas -/

/-- No binding for an erased key is ever found again. -/
theorem find_eraseKey (files : List (String × String)) (n : String) :
    List.find? (fun kv => kv.1 == n) (eraseKey files n) = none := by
  rw [List.find?_eq_none]
  intro kv hkv
  have h := List.of_mem_filter hkv
  simpa using h

/-- After `removeFile` no file exists at the removed path. -/
theorem lookupFile_removeFile (fsx : FsState) (n : String) :
    lookupFile (removeFile fsx n) n = none := by
  simp [lookupFile, removeFile, find_eraseKey]

/-- After `setFile` the file at the path holds exactly the new content. -/
theorem lookupFile_setFile (fsx : FsState) (n c : String) :
    lookupFile (setFile fsx n c) n = some c := by
  simp [lookupFile, setFile, List.find?_append, find_eraseKey]

/-- C5: for every write performed through `_open_write_file`, a failure
during the write deletes the partially written file before the failure is
re-raised, so afterwards no file — not even an empty or truncated one —
exists at the target path (and nothing is reported); on success the file
holds the full content and the written path is reported on standard
output. -/
theorem C5_open_write_file_rollback (fsx : FsState) (filename : String)
    (w : WriteAttempt) :
    (w.ok = false →
      lookupFile (_open_write_file fsx filename w).1 filename = none ∧
      (_open_write_file fsx filename w).2 = ([], false)) ∧
    (w.ok = true →
      lookupFile (_open_write_file fsx filename w).1 filename = some w.full ∧
      (_open_write_file fsx filename w).2 = ([filename], true)) := by
  constructor
  · intro hok
    simp only [_open_write_file, hok, Bool.false_eq_true, if_false]
    exact ⟨lookupFile_removeFile _ _, by trivial⟩
  · intro hok
    simp only [_open_write_file, hok, if_true]
    exact ⟨lookupFile_setFile _ _ _, by trivial⟩

/-- Witness for C5: a failing write over a pre-existing file leaves no
file behind, and a successful write of the same path reports it. -/
theorem C5_open_write_file_rollback_witness :
    (lookupFile (_open_write_file ⟨[("t", "OLD")], []⟩ "t"
        ⟨"par", "full", false⟩).1 "t" = none ∧
      (_open_write_file ⟨[("t", "OLD")], []⟩ "t"
        ⟨"par", "full", false⟩).2 = ([], false)) ∧
    (lookupFile (_open_write_file ⟨[], []⟩ "t" ⟨"", "full", true⟩).1 "t" =
        some "full" ∧
      (_open_write_file ⟨[], []⟩ "t" ⟨"", "full", true⟩).2 =
        (["t"], true)) :=
  ⟨(C5_open_write_file_rollback ⟨[("t", "OLD")], []⟩ "t"
      ⟨"par", "full", false⟩).1 rfl,
   (C5_open_write_file_rollback ⟨[], []⟩ "t" ⟨"", "full", true⟩).2 rfl⟩

/-! ### Concrete instances for the collision claim -/

/-- A plain module writing `A` to `html/a.html`. -/
def modA : PModule := PModule.mk "a.html" false "A" PModList.nil

/-- A plain module whose target `html/b.html` will collide. -/
def modB : PModule := PModule.mk "b.html" false "B" PModList.nil

/-- Initial state of a run: `html/b.html` already exists with prior
content, `html/a.html` does not. -/
def fsPre : FsState := ⟨[("html/b.html", "OLD")], ["html"]⟩

/-- C4, counterexample: the claim says that when force is not set a
pre-flight existence check runs before any write begins for the whole run,
so that a pre-existing target aborts the run before any file is written.
In the code the check is interleaved per unit inside the write loop: with
units a then b and b's target pre-existing from the start, the run still
writes a's file before aborting on b, so the abort (exit status 1) happens
after a write of the run has already begun. -/
theorem C4_preflight_not_run_wide :
    (runModules false "html" fsPre
        (PModList.cons modA (PModList.cons modB PModList.nil))).2 = some 1 ∧
    lookupFile fsPre "html/a.html" = none ∧
    lookupFile (runModules false "html" fsPre
        (PModList.cons modA (PModList.cons modB PModList.nil))).1
      "html/a.html" = some "A" ∧
    (runModules false "html" fsPre
        (PModList.cons modA (PModList.cons modB PModList.nil))).1 ≠ fsPre := by
  refine ⟨rfl, rfl, rfl, ?_⟩
  decide

/-- C4, amended: when force is not set, the pre-flight check runs per
unit immediately before that unit's write; if the unit's target file (or,
for a package unit, its containing directory) already exists, the run
aborts with exit status 1 before any file of that unit is written, and
the state — in particular the pre-existing file — is byte-for-byte
unchanged from the moment the unit's processing began. -/
theorem C4_quit_if_exists_aborts_before_unit_write (od : String)
    (fsx : FsState) (m : PModule) (rest : PModList)
    (h : (quitPaths od m ".html").any (lexists fsx) = true) :
    runModules false od fsx (PModList.cons m rest) = (fsx, some 1) := by
  simp only [runModules, processOne, _quit_if_exists, Bool.false_eq_true,
    if_false, h, if_true]

/-- Witness for the amended C4 at a package unit whose containing
directory already exists. -/
theorem C4_quit_if_exists_aborts_before_unit_write_witness :
    runModules false "html"
        ⟨[], ["html", "html/pkg"]⟩
        (PModList.cons (PModule.mk "pkg/index.html" true "P" PModList.nil)
          PModList.nil) =
      (⟨[], ["html", "html/pkg"]⟩, some 1) :=
  C4_quit_if_exists_aborts_before_unit_write "html" ⟨[], ["html", "html/pkg"]⟩
    (PModule.mk "pkg/index.html" true "P" PModList.nil) PModList.nil
    (by decide)

/-! ## Search-index URL interning (cli.py to_url_id and the urls array)

`url_cache` is a Python dict from url string to integer id; insertion
order is modelled by an association list in insertion order. -/

/-- Python's `url in url_cache` / `url_cache[url]` pair: the id bound to a
url, if any (first binding wins, and the construction never binds a url
twice). -/
def lookupCache (cache : List (String × Nat)) (url : String) : Option Nat :=
  (cache.find? (fun kv => kv.1 == url)).map (fun kv => kv.2)

/-- cli.py lines 521-523, the caching core of `to_url_id`: a url not yet
in the cache is bound to `len(url_cache)`; the bound id is returned with
the updated cache.  (The module-url preprocessing of lines 518-520 is
`moduleUrlKey` below.) -/
def to_url_id (url : String) (cache : List (String × Nat)) :
    Nat × List (String × Nat) :=
  match lookupCache cache url with
  | some i => (i, cache)
  | none => (cache.length, cache ++ [(url, cache.length)])

/-- cli.py lines 518-520: the url of a module as interned — when the top
module is a package the part of `module.url()` after the first slash
(`url.split('/', maxsplit=1)`); a package-relative url with no slash makes
the Python unpacking raise, modelled by `none`. -/
def moduleUrlKey (topIsPackage : Bool) (murl : String) : Option String :=
  if topIsPackage then
    match splitOnChar '/' murl with
    | [] => none
    | [_] => none
    | _ :: rest => some (joinWith "/" rest)
  else some murl

/-- Interning a sequence of urls into a cache, left to right. -/
def internRun : List String → List (String × Nat) → List (String × Nat)
  | [], c => c
  | u :: us, c => internRun us (to_url_id u c).2

/-- Stable ascending insertion by the id component. -/
def insertByIdx (x : String × Nat) :
    List (String × Nat) → List (String × Nat)
  | [] => [x]
  | y :: ys => if x.2 < y.2 then x :: y :: ys else y :: insertByIdx x ys

/-- Stable sort by the id component, cli.py line 528's
`sorted(url_cache.items(), key=lambda i: i[1])`. -/
def sortByIdx : List (String × Nat) → List (String × Nat)
  | [] => []
  | x :: xs => insertByIdx x (sortByIdx xs)

/-- cli.py line 528: the urls array, the cache entries sorted by id and
projected to their url. -/
def urlsArray (c : List (String × Nat)) : List String :=
  (sortByIdx c).map Prod.fst

/-! ### Interning invariants -/

/-- The ids of the cache entries are consecutive starting at `n`. -/
def IdxFrom : Nat → List (String × Nat) → Prop
  | _, [] => True
  | n, kv :: rest => kv.2 = n ∧ IdxFrom (n + 1) rest

/-- Every entry's url looks itself up to that entry's id (in particular
no earlier entry shadows it). -/
def KeysOnce (c : List (String × Nat)) : Prop :=
  ∀ k (h : k < c.length),
    lookupCache c (c.get ⟨k, h⟩).1 = some (c.get ⟨k, h⟩).2

/-- A failed search is unaffected by a later extension of the list. -/
theorem find_append_of_none {p : String × Nat → Bool}
    {c : List (String × Nat)} (h : c.find? p = none)
    (rest : List (String × Nat)) :
    (c ++ rest).find? p = rest.find? p := by
  rw [List.find?_append, h]
  rfl

/-- A successful search is unaffected by a later extension of the list. -/
theorem find_append_of_some {p : String × Nat → Bool}
    {c : List (String × Nat)} {kv : String × Nat} (h : c.find? p = some kv)
    (rest : List (String × Nat)) :
    (c ++ rest).find? p = some kv := by
  rw [List.find?_append, h]
  rfl

/-- Appending a binding for an absent url makes it found with its id. -/
theorem lookupCache_append {c : List (String × Nat)} {u : String}
    (h : lookupCache c u = none) (m : Nat) :
    lookupCache (c ++ [(u, m)]) u = some m := by
  unfold lookupCache at h ⊢
  cases hf : c.find? (fun kv => kv.1 == u) with
  | some kv => rw [hf] at h; simp at h
  | none =>
    rw [find_append_of_none hf]
    simp [List.find?]

/-- Interning the same url twice yields the same id both times. -/
theorem to_url_id_idem (u : String) (c : List (String × Nat)) :
    (to_url_id u (to_url_id u c).2).1 = (to_url_id u c).1 := by
  cases h : lookupCache c u with
  | some i => simp [to_url_id, h]
  | none => simp [to_url_id, h, lookupCache_append h c.length]

/-- Appending the next consecutive id preserves `IdxFrom`. -/
theorem IdxFrom_append (u : String) :
    ∀ (n : Nat) (c : List (String × Nat)), IdxFrom n c →
      IdxFrom n (c ++ [(u, n + c.length)]) := by
  intro n c
  induction c generalizing n with
  | nil => intro _; exact ⟨by simp, trivial⟩
  | cons kv rest ih =>
    intro h
    obtain ⟨h1, h2⟩ := h
    show kv.2 = n ∧ IdxFrom (n + 1) (rest ++ [(u, n + (kv :: rest).length)])
    refine ⟨h1, ?_⟩
    rw [show n + (kv :: rest).length = (n + 1) + rest.length from by
      simp only [List.length_cons]
      omega]
    exact ih (n + 1) h2

/-- The entry at position `i` of an `IdxFrom n` cache has id `n + i`. -/
theorem IdxFrom_get :
    ∀ (n : Nat) (c : List (String × Nat)), IdxFrom n c →
      ∀ i (h : i < c.length), (c.get ⟨i, h⟩).2 = n + i := by
  intro n c
  induction c generalizing n with
  | nil =>
    intro _ i h
    exact absurd h (by simp)
  | cons kv rest ih =>
    intro hidx i h
    obtain ⟨h1, h2⟩ := hidx
    cases i with
    | zero => simpa using h1
    | succ i =>
      have hi : i < rest.length := by simpa using h
      have hstep := ih (n + 1) h2 i hi
      show (rest.get ⟨i, hi⟩).2 = n + (i + 1)
      rw [hstep]
      omega

/-- `to_url_id` preserves `IdxFrom 0`. -/
theorem to_url_id_IdxFrom {u : String} {c : List (String × Nat)}
    (h : IdxFrom 0 c) : IdxFrom 0 (to_url_id u c).2 := by
  cases hl : lookupCache c u with
  | some i => simpa [to_url_id, hl] using h
  | none =>
    have happ := IdxFrom_append u 0 c h
    rw [Nat.zero_add] at happ
    simpa [to_url_id, hl] using happ

/-- `to_url_id` preserves `KeysOnce`. -/
theorem to_url_id_KeysOnce {u : String} {c : List (String × Nat)}
    (h : KeysOnce c) : KeysOnce (to_url_id u c).2 := by
  cases hl : lookupCache c u with
  | some i => simpa [to_url_id, hl] using h
  | none =>
    simp only [to_url_id, hl]
    intro k hk
    rcases Nat.lt_or_ge k c.length with hkc | hkc
    · have hget : (c ++ [(u, c.length)]).get ⟨k, hk⟩ = c.get ⟨k, hkc⟩ := by
        simp only [List.get_eq_getElem]
        exact List.getElem_append_left hkc
      rw [hget]
      have hold := h k hkc
      unfold lookupCache at hold ⊢
      cases hf : c.find? (fun kv => kv.1 == (c.get ⟨k, hkc⟩).1) with
      | some kv =>
        rw [find_append_of_some hf]
        rw [hf] at hold
        exact hold
      | none => rw [hf] at hold; simp at hold
    · have hk1 : k = c.length := by
        simp only [List.length_append, List.length_singleton] at hk
        omega
      subst hk1
      have hget : (c ++ [(u, c.length)]).get ⟨c.length, hk⟩ = (u, c.length) := by
        simp
      rw [hget]
      exact lookupCache_append hl c.length

/-- `internRun` preserves both invariants. -/
theorem internRun_inv :
    ∀ (us : List String) (c : List (String × Nat)),
      IdxFrom 0 c → KeysOnce c →
      IdxFrom 0 (internRun us c) ∧ KeysOnce (internRun us c) := by
  intro us
  induction us with
  | nil => intro c h1 h2; exact ⟨h1, h2⟩
  | cons u us ih =>
    intro c h1 h2
    exact ih (to_url_id u c).2 (to_url_id_IdxFrom h1) (to_url_id_KeysOnce h2)

/-- An `IdxFrom` cache is already sorted by id, so the stable sort leaves
it unchanged. -/
theorem sortByIdx_of_IdxFrom :
    ∀ (n : Nat) (c : List (String × Nat)), IdxFrom n c → sortByIdx c = c := by
  intro n c
  induction c generalizing n with
  | nil => intro _; rfl
  | cons kv rest ih =>
    intro h
    obtain ⟨h1, h2⟩ := h
    have hrest : sortByIdx rest = rest := ih (n + 1) h2
    simp only [sortByIdx, hrest]
    cases rest with
    | nil => rfl
    | cons kv2 r2 =>
      obtain ⟨h21, _⟩ := h2
      have hlt : kv.2 < kv2.2 := by omega
      simp [insertByIdx, hlt]

/-- C6: within one build, interning the same url twice yields the same
integer id both times; ids are dense in first-seen order starting from 0
(the cache entry at position i carries id i); and the emitted urls array
is the cache in insertion order, its element at every index k being
exactly the url whose first-seen id was k (interning it again returns id
k and leaves the cache unchanged). -/
theorem C6_url_interning (us : List String) :
    (∀ u, (to_url_id u (to_url_id u (internRun us [])).2).1 =
        (to_url_id u (internRun us [])).1) ∧
    (∀ i (h : i < (internRun us []).length),
      ((internRun us []).get ⟨i, h⟩).2 = i) ∧
    urlsArray (internRun us []) = (internRun us []).map Prod.fst ∧
    (∀ k (h : k < (urlsArray (internRun us [])).length),
      to_url_id ((urlsArray (internRun us [])).get ⟨k, h⟩) (internRun us []) =
        (k, internRun us [])) := by
  obtain ⟨hidx, honce⟩ :=
    internRun_inv us [] trivial (by intro k h; exact absurd h (by simp))
  have hsort : sortByIdx (internRun us []) = internRun us [] :=
    sortByIdx_of_IdxFrom 0 (internRun us []) hidx
  have hurls : urlsArray (internRun us []) = (internRun us []).map Prod.fst := by
    simp [urlsArray, hsort]
  refine ⟨fun u => to_url_id_idem u (internRun us []), ?_, hurls, ?_⟩
  · intro i h
    have := IdxFrom_get 0 (internRun us []) hidx i h
    omega
  · intro k h
    have hlen : k < (internRun us []).length := by
      have hh := h
      rw [hurls, List.length_map] at hh
      exact hh
    have hkey : (urlsArray (internRun us [])).get ⟨k, h⟩ =
        ((internRun us []).get ⟨k, hlen⟩).1 := by
      rw [List.get_of_eq hurls ⟨k, h⟩]
      simp
    rw [hkey]
    have hlook := honce k hlen
    have hid : ((internRun us []).get ⟨k, hlen⟩).2 = k := by
      have := IdxFrom_get 0 (internRun us []) hidx k hlen
      omega
    rw [hid] at hlook
    unfold to_url_id
    rw [hlook]

/-- Witness for C6: in the build run over urls a, b, a the url b interns
idempotently and re-interning the element at index 1 of the urls array
returns id 1 with the cache unchanged. -/
theorem C6_url_interning_witness :
    ((to_url_id "b" (to_url_id "b" (internRun ["a", "b", "a"] [])).2).1 =
      (to_url_id "b" (internRun ["a", "b", "a"] [])).1) ∧
    to_url_id "b" (internRun ["a", "b", "a"] []) =
      (1, internRun ["a", "b", "a"] []) :=
  ⟨(C6_url_interning ["a", "b", "a"]).1 "b",
   (C6_url_interning ["a", "b", "a"]).2.2.2 1 (by decide)⟩

/-! ## Search-index builder (cli.py _generate_lunr_search)

The documentation-object tree is modelled with an explicit refname,
docstring, Function flag, owning-module url (`dobj.module.url()`) and
member list (`dobj.doc.values()`).  The docstring normalization
`trim_docstring` is a regex substitution over the docstring text whose
content none of the claims depend on; it enters as the function-valued
parameter `trim`. -/

mutual
/-- A documentation object as the index builder sees it. -/
inductive DObj where
  | mk (refname : String) (docstring : String) (isFunc : Bool)
      (moduleUrl : String) (members : DObjList)
/-- A list of documentation objects. -/
inductive DObjList where
  | nil
  | cons (d : DObj) (rest : DObjList)
end

def DObj.refname : DObj → String
  | .mk r _ _ _ _ => r

def DObj.isFunc : DObj → Bool
  | .mk _ _ f _ _ => f

mutual
/-- Pre-order listing of a documentation-object tree. -/
def preorder : DObj → List DObj
  | DObj.mk r d f u members => DObj.mk r d f u members :: preorderList members
/-- Pre-order listing of a forest. -/
def preorderList : DObjList → List DObj
  | DObjList.nil => []
  | DObjList.cons d rest => preorder d ++ preorderList rest
end

/-- One record of the INDEX array (cli.py lines 504-512): the
fully-qualified reference name, the interned url id, the normalized
docstring when docstring indexing is on, and the Function marker. -/
structure IndexRecord where
  ref : String
  url : Nat
  doc : Option String
  func : Bool
  deriving DecidableEq, Repr

/-- cli.py lines 517-523, `to_url_id` on a module: the module url is
preprocessed by `moduleUrlKey` and then interned in the url cache. -/
def to_url_id_m (topIsPackage : Bool) (murl : String)
    (cache : List (String × Nat)) : Option (Nat × List (String × Nat)) :=
  match moduleUrlKey topIsPackage murl with
  | none => none
  | some u => some (to_url_id u cache)

mutual
/-- cli.py lines 503-514, `recursive_add_to_index`: emit one record for
the object (keys inserted in the order ref, url, doc when docstring
indexing is on, func when the object is a Function), then recurse into
its members in order. -/
def recursive_add_to_index (idxDoc topIsPkg : Bool) (trim : String → String) :
    DObj → List IndexRecord → List (String × Nat) →
    Option (List IndexRecord × List (String × Nat))
  | DObj.mk ref doc isF murl members, index, cache =>
    match to_url_id_m topIsPkg murl cache with
    | none => none
    | some (uid, cache2) =>
      addListToIndex idxDoc topIsPkg trim members
        (index ++ [{ ref := ref, url := uid,
                     doc := if idxDoc then some (trim doc) else none,
                     func := isF }]) cache2
/-- The `for member_dobj in dobj.doc.values()` recursion of cli.py
lines 513-514. -/
def addListToIndex (idxDoc topIsPkg : Bool) (trim : String → String) :
    DObjList → List IndexRecord → List (String × Nat) →
    Option (List IndexRecord × List (String × Nat))
  | DObjList.nil, index, cache => some (index, cache)
  | DObjList.cons d rest, index, cache =>
    match recursive_add_to_index idxDoc topIsPkg trim d index cache with
    | none => none
    | some (index2, cache2) => addListToIndex idxDoc topIsPkg trim rest index2 cache2
end

/-! ### JSON rendering, Python json.dump with indent=0 and
separators=(',', ':')

With a non-None indent, Python emits a newline after every opening
bracket, between items after the item separator, and before the closing
bracket, each line indented by indent*level spaces — zero here, so no
indentation appears.  The key separator ':' carries no space.  Escaping is
modelled for the common escapes (backslash, quote, newline, tab, carriage
return); other characters pass through unchanged, so strings are assumed
to hold no other control or non-ASCII characters. -/

/-- JSON string escaping of one character. -/
def escapeChar (c : Char) : List Char :=
  if c = '\\' then ['\\', '\\']
  else if c = '\"' then ['\\', '\"']
  else if c = '\n' then ['\\', 'n']
  else if c = '\t' then ['\\', 't']
  else if c = '\r' then ['\\', 'r']
  else [c]

/-- JSON string escaping. -/
def jsonEscape (s : String) : String :=
  String.mk (s.toList.foldr (fun c acc => escapeChar c ++ acc) [])

/-- A JSON string literal. -/
def jsonStr (s : String) : String :=
  "\"" ++ jsonEscape s ++ "\""

/-- The JSON values appearing in the search index: strings and ints. -/
inductive JVal where
  | str (s : String)
  | num (n : Nat)
  deriving DecidableEq, Repr

def renderJVal : JVal → String
  | .str s => jsonStr s
  | .num n => toString n

/-- One `key:value` row of an object, with the compact ':' separator. -/
def renderPairRow (p : String × JVal) : String :=
  jsonStr p.1 ++ ":" ++ renderJVal p.2

/-- A JSON object at indent level 0. -/
def renderObj (ps : List (String × JVal)) : String :=
  match ps with
  | [] => "\x7b\x7d"
  | _ => "\x7b\n" ++ joinWith ",\n" (ps.map renderPairRow) ++ "\n\x7d"

/-- A JSON array of strings at indent level 0. -/
def renderStrArray (xs : List String) : String :=
  match xs with
  | [] => "[]"
  | _ => "[\n" ++ joinWith ",\n" (xs.map jsonStr) ++ "\n]"

/-- A JSON array of objects at indent level 0. -/
def renderObjArray (os : List (List (String × JVal))) : String :=
  match os with
  | [] => "[]"
  | _ => "[\n" ++ joinWith ",\n" (os.map renderObj) ++ "\n]"

/-- The key/value rows of one serialized index record, in insertion
order: ref, url, then doc if present, then func (as integer 1) if the
object is a Function. -/
def recordPairs (r : IndexRecord) : List (String × JVal) :=
  [("ref", JVal.str r.ref), ("url", JVal.num r.url)] ++
  (match r.doc with | some d => [("doc", JVal.str d)] | none => []) ++
  (if r.func then [("func", JVal.num 1)] else [])

/-- cli.py lines 533-537: the content written to index.js — the `URLS=`
statement, the compact urls array, then `;`, a newline, the `INDEX=`
statement and the compact index array. -/
def indexJsContent (urls : List String) (index : List IndexRecord) : String :=
  "URLS=" ++ renderStrArray urls ++ ";\nINDEX=" ++
    renderObjArray (index.map recordPairs)

/-- cli.py lines 488-537 restricted to the index.js payload: run the
pre-order indexing from an empty index and url cache, then serialize. -/
def _generate_lunr_search_indexjs (idxDoc topIsPkg : Bool)
    (trim : String → String) (top : DObj) : Option String :=
  match recursive_add_to_index idxDoc topIsPkg trim top [] [] with
  | none => none
  | some (index, cache) => some (indexJsContent (urlsArray cache) index)

/-- Correspondence between an emitted record and the documentation object
it was emitted for: same reference name, the Function marker exactly on
Function objects, and a docstring exactly when docstring indexing is on. -/
def RecMatches (b : Bool) (r : IndexRecord) (d : DObj) : Prop :=
  r.ref = d.refname ∧ r.func = d.isFunc ∧ r.doc.isSome = b

mutual
/-- The records appended by indexing one object correspond one-to-one, in
order, to the pre-order listing of its tree. -/
theorem addToIndex_matches (b tp : Bool) (tr : String → String) :
    ∀ (d : DObj) (index : List IndexRecord) (cache : List (String × Nat))
      (index2 : List IndexRecord) (cache2 : List (String × Nat)),
      recursive_add_to_index b tp tr d index cache = some (index2, cache2) →
      ∃ tail, index2 = index ++ tail ∧
        List.Forall₂ (RecMatches b) tail (preorder d)
  | DObj.mk ref doc isF murl members, index, cache, index2, cache2 => by
    intro h
    unfold recursive_add_to_index at h
    cases hu : to_url_id_m tp murl cache with
    | none => rw [hu] at h; exact absurd h (by simp)
    | some pr =>
      obtain ⟨uid, cache1⟩ := pr
      rw [hu] at h
      obtain ⟨tail2, htail2, hmatch2⟩ :=
        addListToIndex_matches b tp tr members
          (index ++ [{ ref := ref, url := uid,
                       doc := if b then some (tr doc) else none,
                       func := isF }]) cache1 index2 cache2 h
      refine ⟨{ ref := ref, url := uid,
                doc := if b then some (tr doc) else none,
                func := isF } :: tail2, ?_, ?_⟩
      · rw [htail2, List.append_assoc]
        rfl
      · show List.Forall₂ (RecMatches b) _
          (DObj.mk ref doc isF murl members :: preorderList members)
        exact List.Forall₂.cons ⟨rfl, rfl, by cases b <;> rfl⟩ hmatch2
/-- The records appended by indexing a forest correspond one-to-one, in
order, to its pre-order listing. -/
theorem addListToIndex_matches (b tp : Bool) (tr : String → String) :
    ∀ (ms : DObjList) (index : List IndexRecord) (cache : List (String × Nat))
      (index2 : List IndexRecord) (cache2 : List (String × Nat)),
      addListToIndex b tp tr ms index cache = some (index2, cache2) →
      ∃ tail, index2 = index ++ tail ∧
        List.Forall₂ (RecMatches b) tail (preorderList ms)
  | DObjList.nil, index, cache, index2, cache2 => by
    intro h
    unfold addListToIndex at h
    refine ⟨[], ?_, ?_⟩
    · simp at h
      rw [← h.1]
      simp
    · show List.Forall₂ (RecMatches b) [] []
      exact List.Forall₂.nil
  | DObjList.cons d rest, index, cache, index2, cache2 => by
    intro h
    unfold addListToIndex at h
    cases h1 : recursive_add_to_index b tp tr d index cache with
    | none => rw [h1] at h; exact absurd h (by simp)
    | some pr =>
      obtain ⟨i1, c1⟩ := pr
      rw [h1] at h
      obtain ⟨tail1, ht1, hm1⟩ := addToIndex_matches b tp tr d index cache i1 c1 h1
      obtain ⟨tail2, ht2, hm2⟩ :=
        addListToIndex_matches b tp tr rest i1 c1 index2 cache2 h
      refine ⟨tail1 ++ tail2, ?_, ?_⟩
      · rw [ht2, ht1, List.append_assoc]
      · show List.Forall₂ (RecMatches b) _ (preorder d ++ preorderList rest)
        exact List.rel_append hm1 hm2
end

/-- C7: the generated index.js is exactly the two statements `URLS=` with
a JSON array of strings and `INDEX=` with a JSON array of objects (the
second preceded by `;` and a newline), serialized with the compact
separators and zero indentation; every emitted object carries the keys
ref and url, a doc key exactly when docstring indexing is on, and a func
key (value 1) exactly for Function members, one object per documentation
object in pre-order. -/
theorem C7_index_js_format (b tp : Bool) (tr : String → String) (top : DObj)
    (index2 : List IndexRecord) (cache2 : List (String × Nat))
    (h : recursive_add_to_index b tp tr top [] [] = some (index2, cache2)) :
    _generate_lunr_search_indexjs b tp tr top =
      some ("URLS=" ++ renderStrArray (urlsArray cache2) ++ ";\nINDEX=" ++
        renderObjArray (index2.map recordPairs)) ∧
    List.Forall₂ (RecMatches b) index2 (preorder top) ∧
    (∀ r ∈ index2, (recordPairs r).map Prod.fst =
      ["ref", "url"] ++ (if r.doc.isSome then ["doc"] else []) ++
        (if r.func then ["func"] else [])) := by
  refine ⟨?_, ?_, ?_⟩
  · unfold _generate_lunr_search_indexjs
    rw [h]
    rfl
  · obtain ⟨tail, htail, hm⟩ :=
      addToIndex_matches b tp tr top [] [] index2 cache2 h
    rw [htail, List.nil_append]
    exact hm
  · intro r _
    obtain ⟨ref, url, doc, func⟩ := r
    cases doc <;> cases func <;> rfl

/-- The concrete tree of the C7 witness: a non-Function module holding
one Function member, both owned by the module with url m.html. -/
def C7top : DObj :=
  DObj.mk "m" "docs" false "m.html"
    (DObjList.cons (DObj.mk "m.f" "" true "m.html" DObjList.nil) DObjList.nil)

/-- Witness for C7: on the concrete tree, with docstring indexing on and
the identity normalization, the builder emits the two records and the
serialized two-statement payload. -/
theorem C7_index_js_format_witness :
    _generate_lunr_search_indexjs true false (fun s => s) C7top =
      some ("URLS=" ++ renderStrArray (urlsArray [("m.html", 0)]) ++
        ";\nINDEX=" ++
        renderObjArray
          ([{ ref := "m", url := 0, doc := some "docs", func := false },
            { ref := "m.f", url := 0, doc := some "", func := true }].map
            recordPairs)) ∧
    List.Forall₂ (RecMatches true)
      [{ ref := "m", url := 0, doc := some "docs", func := false },
       { ref := "m.f", url := 0, doc := some "", func := true }]
      (preorder C7top) := by
  have h : recursive_add_to_index true false (fun s => s) C7top [] [] =
      some ([{ ref := "m", url := 0, doc := some "docs", func := false },
             { ref := "m.f", url := 0, doc := some "", func := true }],
            [("m.html", 0)]) := rfl
  exact ⟨(C7_index_js_format true false (fun s => s) C7top _ _ h).1,
         (C7_index_js_format true false (fun s => s) C7top _ _ h).2.1⟩

/-! ## Live server: external-link resolution (cli.py resolve_ext and the
.ext branch of do_GET) -/

/-- Modelled from the spec: `pdoc._URL_PACKAGE_SUFFIX`, the suffix of a
package-index file, lives in the pdoc package outside this repository's
CLI sources; the spec's file layout gives a package a directory of its
own base name holding an index file, probed as `<dir>/index.html`. -/
def URL_PACKAGE_SUFFIX : String := "/index.html"

/-- Modelled from the spec: `pdoc._URL_MODULE_SUFFIX`, the suffix of a
module file; the spec's file layout and its external-link example
(`pkg/sub.html`) give module files the suffix `.html`. -/
def URL_MODULE_SUFFIX : String := ".html"

/-- Modelled from the spec: `pdoc._URL_INDEX_MODULE_SUFFIX`, the
package-index suffix stripped from request urls; taken as the
package-index file name as for `URL_PACKAGE_SUFFIX`. -/
def URL_INDEX_MODULE_SUFFIX : String := "/index.html"

/-- cli.py lines 383-392, the inner `exists` of `resolve_ext`: join the
candidate below the output directory, probe the package-index file then
the module file, and return the hit with the output-directory part of the
path cut off. -/
def exists_ (isfile : String → Bool) (od p : String) : Option String :=
  let p2 := joinPath od p
  let pkg := joinPath p2 (lstripSlash URL_PACKAGE_SUFFIX)
  let mod := p2 ++ URL_MODULE_SUFFIX
  if isfile pkg then some (strDrop pkg (strLen od))
  else if isfile mod then some (strDrop mod (strLen od))
  else none

/-- The `for i in range(len(parts), 0, -1)` countdown of cli.py
lines 395-399: try the prefix of length `i`, longest first. -/
def resolveLoop (isfile : String → Bool) (od importPath : String)
    (parts : List String) : Nat → Option String
  | 0 => none
  | i + 1 =>
    match exists_ isfile od (joinWith "/" (parts.take (i + 1))) with
    | some realp => some ("/" ++ lstripSlash realp ++ "#" ++ importPath)
    | none => resolveLoop isfile od importPath parts i

/-- cli.py lines 382-400, `resolve_ext`: dotted prefixes of the import
path, longest first; the first filesystem hit becomes a location with the
full original dotted path as fragment. -/
def resolve_ext (isfile : String → Bool) (od importPath : String) :
    Option String :=
  let parts := splitOnChar '.' importPath
  resolveLoop isfile od importPath parts parts.length

/-- The response of the `.ext` branch: a 302 redirect or a page with a
status code. -/
inductive ExtResponse where
  | redirect (location : String)
  | page (code : Nat) (body : String)
  deriving DecidableEq, Repr

/-- cli.py lines 312-338, the `.ext` branch of `do_GET`: strip the
`.ext` suffix and leading slashes, resolve; a hit redirects (302);
otherwise documentation is generated on the fly for the outermost dotted
component (`pdoc.html`, the collaborator `genHtml`, `none` meaning the
generation raised), a failure producing the 404 page. -/
def do_GET_ext (isfile : String → Bool) (od : String)
    (genHtml : String → Option String) (reqPath : String) : ExtResponse :=
  let import_path := lstripSlash (strDropRight reqPath 4)
  match resolve_ext isfile od import_path with
  | some resolved => ExtResponse.redirect resolved
  | none =>
    match genHtml ((splitOnChar '.' import_path).headD "") with
    | some out => ExtResponse.page 200 out
    | none =>
      ExtResponse.page 404
        ("External identifier <code>" ++ import_path ++ "</code> not found.")

/-- The countdown returns the redirect of the longest hitting prefix. -/
theorem resolveLoop_hit (isfile : String → Bool) (od importPath : String)
    (parts : List String) :
    ∀ (n i : Nat) (realp : String), 1 ≤ i → i ≤ n →
      exists_ isfile od (joinWith "/" (parts.take i)) = some realp →
      (∀ j, i < j → j ≤ n →
        exists_ isfile od (joinWith "/" (parts.take j)) = none) →
      resolveLoop isfile od importPath parts n =
        some ("/" ++ lstripSlash realp ++ "#" ++ importPath) := by
  intro n
  induction n with
  | zero => intro i realp h1 h2 _ _; omega
  | succ n ih =>
    intro i realp h1 h2 hhit hmiss
    rcases Nat.lt_or_ge i (n + 1) with hin | hin
    · have hnone : exists_ isfile od (joinWith "/" (parts.take (n + 1))) = none :=
        hmiss (n + 1) hin (Nat.le_refl _)
      simp only [resolveLoop, hnone]
      exact ih i realp h1 (by omega) hhit
        (fun j hj1 hj2 => hmiss j hj1 (by omega))
    · have hi : i = n + 1 := by omega
      subst hi
      simp only [resolveLoop, hhit]

/-- The countdown misses when every prefix misses. -/
theorem resolveLoop_none (isfile : String → Bool) (od importPath : String)
    (parts : List String) :
    ∀ n : Nat,
      (∀ j, 1 ≤ j → j ≤ n →
        exists_ isfile od (joinWith "/" (parts.take j)) = none) →
      resolveLoop isfile od importPath parts n = none := by
  intro n
  induction n with
  | zero => intro _; rfl
  | succ n ih =>
    intro hmiss
    have hnone : exists_ isfile od (joinWith "/" (parts.take (n + 1))) = none :=
      hmiss (n + 1) (by omega) (Nat.le_refl _)
    simp only [resolveLoop, hnone]
    exact ih (fun j hj1 hj2 => hmiss j hj1 (by omega))

/-- C8: external-link resolution tries successively shorter dotted
prefixes of the requested symbol path, longest first; on the first
(longest) prefix whose generated package-index or module file exists it
redirects to that file with the full original dotted path as fragment;
when no prefix matches it falls back to on-demand generation for the
outermost component, a generation failure yielding the 404 page. -/
theorem C8_resolve_ext_longest_first (isfile : String → Bool) (od : String)
    (genHtml : String → Option String) (reqPath importPath : String)
    (hreq : lstripSlash (strDropRight reqPath 4) = importPath) :
    (∀ i realp, 1 ≤ i → i ≤ (splitOnChar '.' importPath).length →
      exists_ isfile od
        (joinWith "/" ((splitOnChar '.' importPath).take i)) = some realp →
      (∀ j, i < j → j ≤ (splitOnChar '.' importPath).length →
        exists_ isfile od
          (joinWith "/" ((splitOnChar '.' importPath).take j)) = none) →
      resolve_ext isfile od importPath =
        some ("/" ++ lstripSlash realp ++ "#" ++ importPath) ∧
      do_GET_ext isfile od genHtml reqPath =
        ExtResponse.redirect ("/" ++ lstripSlash realp ++ "#" ++ importPath)) ∧
    ((∀ j, 1 ≤ j → j ≤ (splitOnChar '.' importPath).length →
        exists_ isfile od
          (joinWith "/" ((splitOnChar '.' importPath).take j)) = none) →
      resolve_ext isfile od importPath = none ∧
      (genHtml ((splitOnChar '.' importPath).headD "") = none →
        do_GET_ext isfile od genHtml reqPath =
          ExtResponse.page 404
            ("External identifier <code>" ++ importPath ++
              "</code> not found.")) ∧
      (∀ out, genHtml ((splitOnChar '.' importPath).headD "") = some out →
        do_GET_ext isfile od genHtml reqPath = ExtResponse.page 200 out)) := by
  constructor
  · intro i realp h1 h2 hhit hmiss
    have hres : resolve_ext isfile od importPath =
        some ("/" ++ lstripSlash realp ++ "#" ++ importPath) :=
      resolveLoop_hit isfile od importPath (splitOnChar '.' importPath)
        (splitOnChar '.' importPath).length i realp h1 h2 hhit hmiss
    refine ⟨hres, ?_⟩
    unfold do_GET_ext
    rw [hreq]
    simp only [hres]
  · intro hmiss
    have hres : resolve_ext isfile od importPath = none :=
      resolveLoop_none isfile od importPath (splitOnChar '.' importPath)
        (splitOnChar '.' importPath).length hmiss
    refine ⟨hres, ?_, ?_⟩
    · intro hgen
      unfold do_GET_ext
      rw [hreq]
      simp only [hres, hgen]
    · intro out hgen
      unfold do_GET_ext
      rw [hreq]
      simp only [hres, hgen]

/-- Witness for C8, the spec's example: with `html/pkg/sub.html`
generated, a request for `/pkg.sub.Name.ext` redirects to
`/pkg/sub.html#pkg.sub.Name`. -/
theorem C8_resolve_ext_longest_first_witness :
    resolve_ext (fun s => s == "html/pkg/sub.html") "html" "pkg.sub.Name" =
      some "/pkg/sub.html#pkg.sub.Name" ∧
    do_GET_ext (fun s => s == "html/pkg/sub.html") "html" (fun _ => none)
        "/pkg.sub.Name.ext" =
      ExtResponse.redirect "/pkg/sub.html#pkg.sub.Name" :=
  (C8_resolve_ext_longest_first (fun s => s == "html/pkg/sub.html") "html"
    (fun _ => none) "/pkg.sub.Name.ext" "pkg.sub.Name" (by decide)).1
    2 "/pkg/sub.html" (by decide) (by decide) (by decide)
    (by
      intro j hj1 hj2
      have hlen : (splitOnChar '.' "pkg.sub.Name").length = 3 := by decide
      rw [hlen] at hj2
      have hj3 : j = 3 := by omega
      subst hj3
      decide)

/-! ## Live server: conditional HEAD (cli.py do_HEAD / check_modified) -/

/-- The reflection collaborator of the live server: `importModule` is
`pdoc.import_module` returning the module's backing file (`__file__`),
`none` meaning an ImportError; `mtime` is `str(os.stat(f).st_mtime)`. -/
structure WebEnv where
  importModule : String → Option String
  mtime : String → String

/-- The `for suffix in (...)` strip of cli.py lines 405-411: drop the
first matching suffix only. -/
def stripSuffixes (pth : String) : List String → String
  | [] => pth
  | suf :: rest =>
    if strEndsWith pth suf then strDropRight pth (strLen suf)
    else stripSuffixes pth rest

/-- cli.py lines 402-412, `import_path_from_req_url`: cut the fragment,
strip leading slashes, drop the first matching reserved suffix and turn
slashes into dots. -/
def import_path_from_req_url (reqPath : String) : String :=
  let pth := lstripSlash ((splitOnChar '#' reqPath).headD "")
  let pth := stripSuffixes pth
    ["/", URL_PACKAGE_SUFFIX, URL_INDEX_MODULE_SUFFIX, URL_MODULE_SUFFIX]
  joinWith "." (splitOnChar '/' pth)

/-- cli.py lines 277-290, `check_modified`: import failure is 404; else
the validator is the backing file's mtime string, the client validator
defaults to it when the header is absent, equality is 304 with request
logging suppressed (the returned Bool), inequality 205. -/
def check_modified (env : WebEnv) (importPath : String)
    (ifNoneMatch : Option String) : Nat × Bool :=
  match env.importModule importPath with
  | none => (404, false)
  | some f =>
    let new_etag := env.mtime f
    let old_etag := ifNoneMatch.getD new_etag
    if old_etag = new_etag then (304, true) else (205, false)

/-- cli.py lines 268-275, `do_HEAD`: the root path is 200, any other path
goes through `check_modified`. -/
def do_HEAD (env : WebEnv) (reqPath : String) (ifNoneMatch : Option String) :
    Nat × Bool :=
  if reqPath = "/" then (200, false)
  else check_modified env (import_path_from_req_url reqPath) ifNoneMatch

/-- C9: for a HEAD request on a non-root path, a failed resolution is
404; with the path resolved to a unit, a client validator equal to the
mtime validator of the unit's backing file gives 304 and suppresses
request logging, and a differing client validator gives 205. -/
theorem C9_head_conditional (env : WebEnv) (reqPath : String)
    (inm : Option String) (hroot : reqPath ≠ "/") :
    (env.importModule (import_path_from_req_url reqPath) = none →
      do_HEAD env reqPath inm = (404, false)) ∧
    (∀ f, env.importModule (import_path_from_req_url reqPath) = some f →
      inm = some (env.mtime f) →
      do_HEAD env reqPath inm = (304, true)) ∧
    (∀ f v, env.importModule (import_path_from_req_url reqPath) = some f →
      inm = some v → v ≠ env.mtime f →
      do_HEAD env reqPath inm = (205, false)) := by
  refine ⟨?_, ?_, ?_⟩
  · intro h
    simp [do_HEAD, hroot, check_modified, h]
  · intro f h hv
    simp [do_HEAD, hroot, check_modified, h, hv]
  · intro f v h hv hne
    simp [do_HEAD, hroot, check_modified, h, hv, hne]

/-- The environment of the HEAD witnesses: only module `m` imports, with
backing file `m.py` whose mtime string is `100.5`. -/
def envW : WebEnv where
  importModule := fun s => if s == "m" then some "m.py" else none
  mtime := fun _ => "100.5"

/-- Witness for C9 at concrete requests: matching validator 304 with
logging suppressed, differing validator 205, unresolvable path 404. -/
theorem C9_head_conditional_witness :
    do_HEAD envW "/m/" (some "100.5") = (304, true) ∧
    do_HEAD envW "/m/" (some "99.0") = (205, false) ∧
    do_HEAD envW "/x/" (some "100.5") = (404, false) :=
  ⟨(C9_head_conditional envW "/m/" (some "100.5") (by decide)).2.1 "m.py"
      (by decide) rfl,
   (C9_head_conditional envW "/m/" (some "99.0") (by decide)).2.2 "m.py"
      "99.0" (by decide) rfl (by decide),
   (C9_head_conditional envW "/x/" (some "100.5") (by decide)).1 (by decide)⟩

/-- C10: a HEAD request on a non-root path that resolves to a unit and
carries no If-None-Match header at all is answered 304 (not 200 or 205):
the absent header defaults to the freshly computed mtime validator, so
the comparison succeeds (and request logging is suppressed). -/
theorem C10_head_no_validator_304 (env : WebEnv) (reqPath : String)
    (hroot : reqPath ≠ "/") (f : String)
    (h : env.importModule (import_path_from_req_url reqPath) = some f) :
    do_HEAD env reqPath none = (304, true) := by
  simp [do_HEAD, hroot, check_modified, h]

/-- Witness for C10 at a concrete request with no validator header. -/
theorem C10_head_no_validator_304_witness :
    do_HEAD envW "/m/" none = (304, true) :=
  C10_head_no_validator_304 envW "/m/" (by decide) "m.py" (by decide)
